import Mathlib

/-!
Shallow embedding of the `terminal_fireworks` simulation core
(`src/main.rs`): the Particle integrator, the Firework lifecycle,
the per-tick state update (reap / spawn / advance) and the draw pass.

Rust `f64` values are modelled as rationals (`ℚ`); the decimal literals of
the source (`0.01`, `0.02`, `0.3`, `0.10`, `0.5`, `1.5`, `0.9`, `0.75`) are
exact rationals here.  The randomness source (`pixel_loop::rand::Rng`) is
modelled as three explicit sample streams (f64, u32 and u8 draws) with
cursors; each draw reads the stream at its cursor and advances it, in the
same order in which the Rust code calls `gen`.
-/

/-- Round-half-away-from-zero, the semantics of Rust `f64::round`. -/
def roundQ (q : ℚ) : ℤ :=
  if 0 ≤ q then ⌊q + 1/2⌋ else -⌊-q + 1/2⌋

/-- Rust `f64::clamp(lo, hi)` on the rational model. -/
def clampQ (q lo hi : ℚ) : ℚ :=
  max lo (min q hi)

/-- `round().clamp(0.0, 255.0) as u8`: the byte produced from a scaled
colour channel in `Particle::draw`. -/
def byteClamp (q : ℚ) : ℕ :=
  (min 255 (max 0 (roundQ q))).toNat

/-- Floating-point remainder (used by the hue sector arithmetic of the
standard HSL conversion formulas). -/
def qmod (a b : ℚ) : ℚ :=
  a - b * ⌊a / b⌋

/-- `pixel_loop::color::Color`: an RGB colour, one byte per channel. -/
structure Color where
  r : ℕ
  g : ℕ
  b : ℕ
deriving DecidableEq, Repr

/-- `pixel_loop::color::HslColor`: hue in [0,360), saturation and
lightness in [0,100]. -/
structure HslColor where
  h : ℚ
  s : ℚ
  l : ℚ
deriving DecidableEq, Repr

/-- Modelled from the spec: the RGB → HSL conversion
(`Color::as_hsl`) lives in the external `pixel_loop` crate, not under
`src/`; the spec (§4.4 Color Model) prescribes the standard colorimetric
formulas with hue in [0,360) and saturation/lightness in [0,100]. -/
def Color.as_hsl (c : Color) : HslColor :=
  let r := (c.r : ℚ) / 255
  let g := (c.g : ℚ) / 255
  let b := (c.b : ℚ) / 255
  let cmax := max r (max g b)
  let cmin := min r (min g b)
  let d := cmax - cmin
  let l := (cmax + cmin) / 2
  let s := if d = 0 then 0 else d / (1 - |2 * l - 1|)
  let h :=
    if d = 0 then 0
    else if cmax = r then 60 * qmod ((g - b) / d) 6
    else if cmax = g then 60 * ((b - r) / d + 2)
    else 60 * ((r - g) / d + 4)
  ⟨h, s * 100, l * 100⟩

/-- Modelled from the spec: the HSL → RGB conversion
(`HslColor → Color`, the `.into()` call in `Firework::update`) lives in
the external `pixel_loop` crate, not under `src/`; the spec (§4.4 Color
Model) prescribes the standard colorimetric formulas. -/
def HslColor.toColor (c : HslColor) : Color :=
  let s := c.s / 100
  let l := c.l / 100
  let ch := (1 - |2 * l - 1|) * s
  let x := ch * (1 - |qmod (c.h / 60) 2 - 1|)
  let m := l - ch / 2
  let f : ℚ × ℚ × ℚ :=
    if c.h < 60 then (ch, x, 0)
    else if c.h < 120 then (x, ch, 0)
    else if c.h < 180 then (0, ch, x)
    else if c.h < 240 then (0, x, ch)
    else if c.h < 300 then (x, 0, ch)
    else (ch, 0, x)
  ⟨byteClamp ((f.1 + m) * 255), byteClamp ((f.2.1 + m) * 255),
   byteClamp ((f.2.2 + m) * 255)⟩

/-- The random source: the successive results of `gen::<f64>()`,
`gen::<u32>()` and `gen::<u8>()`, with one cursor per stream. -/
structure Rng where
  floats : ℕ → ℚ
  u32s : ℕ → ℕ
  u8s : ℕ → ℕ
  fi : ℕ
  ui : ℕ
  bi : ℕ

/-- One `gen::<f64>()` draw. -/
def Rng.genF (r : Rng) : ℚ × Rng :=
  (r.floats r.fi, { r with fi := r.fi + 1 })

/-- One `gen::<u32>()` draw. -/
def Rng.genU32 (r : Rng) : ℕ × Rng :=
  (r.u32s r.ui, { r with ui := r.ui + 1 })

/-- One `gen::<u8>()` draw. -/
def Rng.genU8 (r : Rng) : ℕ × Rng :=
  (r.u8s r.bi, { r with bi := r.bi + 1 })

/-- `struct Particle` of `src/main.rs`. -/
structure Particle where
  position : ℚ × ℚ
  dimensions : ℕ × ℕ
  lifetime : ℚ
  fading : ℚ
  speed : ℚ × ℚ
  acceleration : ℚ × ℚ
  color : Color
deriving DecidableEq, Repr

/-- `Particle::new`: position from the integer arguments, lifetime 1.0,
fading 0.01, zero speed and acceleration. -/
def Particle.new (x y : ℤ) (width height : ℕ) (color : Color) : Particle :=
  { position := ((x : ℚ), (y : ℚ))
    dimensions := (width, height)
    lifetime := 1
    fading := 1/100
    speed := (0, 0)
    acceleration := (0, 0)
    color := color }

/-- `Particle::with_fading`. -/
def Particle.with_fading (p : Particle) (fading : ℚ) : Particle :=
  { p with fading := fading }

/-- `Particle::with_speed`. -/
def Particle.with_speed (p : Particle) (x y : ℚ) : Particle :=
  { p with speed := (x, y) }

/-- `Particle::with_acceleration`. -/
def Particle.with_acceleration (p : Particle) (x y : ℚ) : Particle :=
  { p with acceleration := (x, y) }

/-- `Particle::update`: dead particles are untouched; otherwise
speed += acceleration, lifetime -= fading, position += (new) speed,
in that order. -/
def Particle.update (p : Particle) : Particle :=
  if p.lifetime ≤ 0 then p
  else
    let speed := (p.speed.1 + p.acceleration.1, p.speed.2 + p.acceleration.2)
    { p with
      speed := speed
      lifetime := p.lifetime - p.fading
      position := (p.position.1 + speed.1, p.position.2 + speed.2) }

/-- `Particle::is_dead`. -/
def Particle.is_dead (p : Particle) : Bool :=
  p.lifetime ≤ 0

/-- One rectangle issued to the canvas by `Canvas::filled_rect`. -/
structure DrawCmd where
  x : ℤ
  y : ℤ
  width : ℕ
  height : ℕ
  color : Color
deriving DecidableEq, Repr

/-- `Particle::draw`: dead particles draw nothing; an alive particle
issues one filled rectangle at its rounded position with its base colour
scaled by the current lifetime, rounded and clamped per channel. -/
def Particle.draw (p : Particle) : List DrawCmd :=
  if p.lifetime ≤ 0 then []
  else
    [{ x := roundQ p.position.1
       y := roundQ p.position.2
       width := p.dimensions.1
       height := p.dimensions.2
       color := ⟨byteClamp ((p.color.r : ℚ) * p.lifetime),
                 byteClamp ((p.color.g : ℚ) * p.lifetime),
                 byteClamp ((p.color.b : ℚ) * p.lifetime)⟩ }]

/-- `struct Firework` of `src/main.rs`. -/
structure Firework where
  rocket : Option Particle
  effect : List Particle
  base_color : HslColor
deriving DecidableEq, Repr

/-- `Firework::new`: a white 1×3 rocket at `(x, y)` with gravity
acceleration `(0, 0.02)`, speed `(0, y_speed)` and zero fading; the
seed colour is converted once to HSL. -/
def Firework.new (x y : ℤ) (y_speed : ℚ) (effect_color : Color) : Firework :=
  { rocket := some ((((Particle.new x y 1 3 ⟨255, 255, 255⟩).with_acceleration
        0 (2/100)).with_speed 0 y_speed).with_fading 0)
    effect := []
    base_color := effect_color.as_hsl }

/-- The body of the `for _ in 0..25` detonation loop of
`Firework::update`, at one loop iteration: the four successive
`gen::<f64>()` draws feed, in source order, the saturation jitter, the
lightness-channel jitter and the two speed components.  Note that the
source reads `self.base_color.s` as the base of BOTH jitters. -/
def mkEffectParticle (base : HslColor) (pos : ℚ × ℚ) (u1 u2 u3 u4 : ℚ) : Particle :=
  ((Particle.new (roundQ pos.1) (roundQ pos.2) 1 1
      (HslColor.toColor
        ⟨base.h,
         clampQ (base.s + (u1 - 1/2) * 2 * 20) 0 100,
         clampQ (base.s + (u2 - 1/2) * 2 * 40) 0 100⟩)).with_acceleration
    0 (2/100)).with_speed (3/2 * (u3 - 1/2)) (3/2 * (u4 - 9/10))

/-- The 25 effect particles pushed by the detonation loop; iteration `i`
consumes the float draws `4*i .. 4*i+3` counted from the rng cursor. -/
def spawnList (base : HslColor) (pos : ℚ × ℚ) (r : Rng) : List Particle :=
  (List.range 25).map fun i =>
    mkEffectParticle base pos
      (r.floats (r.fi + 4 * i)) (r.floats (r.fi + 4 * i + 1))
      (r.floats (r.fi + 4 * i + 2)) (r.floats (r.fi + 4 * i + 3))

/-- `Firework::update`: if the rocket is present it is advanced first;
if its vertical speed then exceeds -0.3 the 25 effect particles are
pushed (consuming 100 float draws) and the rocket is dropped; finally
every effect particle — including any just pushed — is advanced. -/
def Firework.update (fw : Firework) (r : Rng) : Firework × Rng :=
  match fw.rocket with
  | some rk =>
    let rk := rk.update
    if rk.speed.2 > -(3/10) then
      ({ fw with
          rocket := none
          effect := (fw.effect ++ spawnList fw.base_color rk.position r).map
            Particle.update },
       { r with fi := r.fi + 100 })
    else
      ({ fw with rocket := some rk, effect := fw.effect.map Particle.update }, r)
  | none => ({ fw with effect := fw.effect.map Particle.update }, r)

/-- `Firework::is_dead`. -/
def Firework.is_dead (fw : Firework) : Bool :=
  fw.rocket.isNone && fw.effect.all Particle.is_dead

/-- `Firework::draw`: the rocket (when present) first, then the effect
particles in order. -/
def Firework.draw (fw : Firework) : List DrawCmd :=
  (match fw.rocket with
   | some rk => rk.draw
   | none => []) ++ (fw.effect.map Particle.draw).flatten

/-- `struct State` of `src/main.rs`. -/
structure State where
  fireworks : List Firework
deriving DecidableEq, Repr

/-- `State::new`. -/
def State.new : State := ⟨[]⟩

/-- The `for firework in state.fireworks.iter_mut()` advance loop,
threading the rng left to right. -/
def updateAll : List Firework → Rng → List Firework × Rng
  | [], r => ([], r)
  | fw :: rest, r =>
    let p := fw.update r
    let q := updateAll rest p.2
    (p.1 :: q.1, q.2)

/-- The reap pass: `state.fireworks.retain(|firework| !firework.is_dead())`. -/
def reapPhase (s : State) : List Firework :=
  s.fireworks.filter fun fw => !fw.is_dead

/-- The conditional spawn: one Bernoulli roll (`gen::<f64>() < 0.10`);
on success exactly one `Firework` is pushed, built from one u32 draw
(the x position, reduced mod the surface width), one float draw (the
launch speed) and three u8 draws (the seed colour), in source order. -/
def spawnPhase (env : Rng) (fws : List Firework) (width height : ℕ) :
    List Firework × Rng :=
  let u := env.floats env.fi
  let env1 : Rng := { env with fi := env.fi + 1 }
  if u < 1/10 then
    (fws ++ [Firework.new ((env1.u32s env1.ui % width : ℕ) : ℤ) (height : ℤ)
        (-1 + env1.floats env1.fi * -1)
        ⟨env1.u8s env1.bi, env1.u8s (env1.bi + 1), env1.u8s (env1.bi + 2)⟩],
     { env1 with ui := env1.ui + 1, fi := env1.fi + 1, bi := env1.bi + 3 })
  else (fws, env1)

/-- One tick of `fn update` of `src/main.rs` (the quit-key branch
terminates the process at driver level and is outside the simulated
core): reap the dead fireworks, roll the spawn trial, then advance
every firework in the collection. -/
def update (env : Rng) (s : State) (width height : ℕ) : State × Rng :=
  let fws := s.fireworks.filter fun fw => !fw.is_dead
  let u := env.floats env.fi
  let env1 : Rng := { env with fi := env.fi + 1 }
  let step :=
    if u < 1/10 then
      (fws ++ [Firework.new ((env1.u32s env1.ui % width : ℕ) : ℤ) (height : ℤ)
          (-1 + env1.floats env1.fi * -1)
          ⟨env1.u8s env1.bi, env1.u8s (env1.bi + 1), env1.u8s (env1.bi + 2)⟩],
       { env1 with ui := env1.ui + 1, fi := env1.fi + 1, bi := env1.bi + 3 })
    else (fws, env1)
  let fin := updateAll step.1 step.2
  (⟨fin.1⟩, fin.2)

/-- `fn render`: clears the screen then draws every firework in order;
modelled as the list of issued rectangles. -/
def render (s : State) : List DrawCmd :=
  (s.fireworks.map Firework.draw).flatten

/-! ### Helper lemmas -/

theorem Particle.update_of_dead {p : Particle} (h : p.lifetime ≤ 0) :
    p.update = p := by
  simp [Particle.update, h]

theorem Particle.update_of_alive {p : Particle} (h : 0 < p.lifetime) :
    p.update =
      { p with
        speed := (p.speed.1 + p.acceleration.1, p.speed.2 + p.acceleration.2)
        lifetime := p.lifetime - p.fading
        position := (p.position.1 + (p.speed.1 + p.acceleration.1),
                     p.position.2 + (p.speed.2 + p.acceleration.2)) } := by
  simp [Particle.update, not_le.mpr h]

theorem Particle.update_color (p : Particle) : p.update.color = p.color := by
  unfold Particle.update
  split <;> rfl

theorem Particle.update_fading (p : Particle) : p.update.fading = p.fading := by
  unfold Particle.update
  split <;> rfl

theorem mem_reapPhase {s : State} {fw : Firework} :
    fw ∈ reapPhase s ↔ fw ∈ s.fireworks ∧ fw.is_dead = false := by
  simp [reapPhase, List.mem_filter]

theorem spawnList_length (base : HslColor) (pos : ℚ × ℚ) (r : Rng) :
    (spawnList base pos r).length = 25 := by
  simp [spawnList]

/-! ### Claim theorems -/

/-- C2: for a particle with positive lifetime, one `update` applies the
acceleration to the velocity, decrements the lifetime by the fading
rate, and moves the position by the already-updated velocity
(semi-implicit / symplectic Euler) — and, whenever the acceleration is
non-zero, the new position genuinely differs from what the pre-update
velocity would have given. -/
theorem particle_update_symplectic (p : Particle) (h : 0 < p.lifetime) :
    p.update.speed = (p.speed.1 + p.acceleration.1, p.speed.2 + p.acceleration.2) ∧
    p.update.lifetime = p.lifetime - p.fading ∧
    p.update.position =
      (p.position.1 + p.update.speed.1, p.position.2 + p.update.speed.2) ∧
    (p.acceleration ≠ (0, 0) →
      p.update.position ≠ (p.position.1 + p.speed.1, p.position.2 + p.speed.2)) := by
  rw [Particle.update_of_alive h]
  refine ⟨rfl, rfl, rfl, ?_⟩
  intro ha hc
  rw [Prod.ext_iff] at hc
  obtain ⟨hc1, hc2⟩ := hc
  dsimp only at hc1 hc2
  apply ha
  rw [Prod.ext_iff]
  constructor
  · have : p.acceleration.1 = 0 := by linarith
    exact this
  · have : p.acceleration.2 = 0 := by linarith
    exact this

/-- Concrete instance of `particle_update_symplectic`. -/
theorem particle_update_symplectic_witness :
    (Particle.new 2 3 1 1 ⟨10, 20, 30⟩).update.speed = (0 + 0, 0 + 0) ∧
    (Particle.new 2 3 1 1 ⟨10, 20, 30⟩).update.lifetime = 1 - 1/100 ∧
    (Particle.new 2 3 1 1 ⟨10, 20, 30⟩).update.position =
      ((2 : ℚ) + (Particle.new 2 3 1 1 ⟨10, 20, 30⟩).update.speed.1,
       (3 : ℚ) + (Particle.new 2 3 1 1 ⟨10, 20, 30⟩).update.speed.2) ∧
    ((Particle.new 2 3 1 1 ⟨10, 20, 30⟩).acceleration ≠ (0, 0) →
      (Particle.new 2 3 1 1 ⟨10, 20, 30⟩).update.position ≠
        ((2 : ℚ) + 0, (3 : ℚ) + 0)) :=
  particle_update_symplectic (Particle.new 2 3 1 1 ⟨10, 20, 30⟩)
    (by norm_num [Particle.new])

/-- C6: a dead particle (lifetime ≤ 0) is frozen: `update` changes no
field, and `draw` issues no rectangle on the surface. -/
theorem dead_particle_frozen (p : Particle) (h : p.lifetime ≤ 0) :
    p.update = p ∧ p.draw = [] :=
  ⟨Particle.update_of_dead h, by simp [Particle.draw, h]⟩

/-- A concrete dead particle (an effect particle after its hundredth
update). -/
def cDeadParticle : Particle :=
  { position := (4, 7)
    dimensions := (1, 1)
    lifetime := 0
    fading := 1/100
    speed := (1/4, 1/2)
    acceleration := (0, 2/100)
    color := ⟨200, 100, 50⟩ }

/-- Concrete instance of `dead_particle_frozen`. -/
theorem dead_particle_frozen_witness :
    cDeadParticle.update = cDeadParticle ∧ cDeadParticle.draw = [] :=
  dead_particle_frozen cDeadParticle (by norm_num [cDeadParticle])

/-- C9: a dead `Firework` (no rocket, every effect particle dead) stays
dead through any further update: it never comes back to life. -/
theorem dead_firework_stays_dead (fw : Firework) (r : Rng)
    (h : fw.is_dead = true) : (fw.update r).1.is_dead = true := by
  rw [Firework.is_dead, Bool.and_eq_true, Option.isNone_iff_eq_none,
    List.all_eq_true] at h
  obtain ⟨h1, h2⟩ := h
  rw [Firework.is_dead, Bool.and_eq_true, Option.isNone_iff_eq_none,
    List.all_eq_true]
  constructor
  · simp [Firework.update, h1]
  · intro p hp
    simp only [Firework.update, h1] at hp
    rcases List.mem_map.mp hp with ⟨q, hq, rfl⟩
    have hd : q.lifetime ≤ 0 := by
      have := h2 q hq
      simpa [Particle.is_dead] using this
    rw [Particle.update_of_dead hd]
    simpa [Particle.is_dead] using hd

/-- A concrete dead firework. -/
def cDeadFirework : Firework :=
  ⟨none, [cDeadParticle], ⟨120, 60, 40⟩⟩

/-- A concrete rng whose float stream is constantly 1/2. -/
def cRngHalf : Rng :=
  ⟨fun _ => 1/2, fun _ => 7, fun _ => 9, 0, 0, 0⟩

/-- Concrete instance of `dead_firework_stays_dead`. -/
theorem dead_firework_stays_dead_witness :
    (cDeadFirework.update cRngHalf).1.is_dead = true :=
  dead_firework_stays_dead cDeadFirework cRngHalf
    (by norm_num [cDeadFirework, cDeadParticle, Firework.is_dead,
      Particle.is_dead])

/-- The fading rate of a particle never changes across updates. -/
theorem Particle.iterate_fading (p : Particle) (n : ℕ) :
    (Particle.update^[n] p).fading = p.fading := by
  induction n with
  | zero => rfl
  | succ m ih => rw [Function.iterate_succ_apply', Particle.update_fading, ih]

/-- As long as every intermediate lifetime stays positive, n updates
decrement the lifetime by exactly n fading steps. -/
theorem Particle.iterate_lifetime (p : Particle) (n : ℕ)
    (h : ∀ k : ℕ, k < n → 0 < p.lifetime - (k : ℚ) * p.fading) :
    (Particle.update^[n] p).lifetime = p.lifetime - (n : ℚ) * p.fading := by
  induction n with
  | zero => simp
  | succ m ih =>
    have hm : (Particle.update^[m] p).lifetime = p.lifetime - (m : ℚ) * p.fading :=
      ih (fun k hk => h k (Nat.lt_succ_of_lt hk))
    have hpos : 0 < (Particle.update^[m] p).lifetime := by
      rw [hm]
      exact h m (Nat.lt_succ_self m)
    rw [Function.iterate_succ_apply', Particle.update_of_alive hpos]
    dsimp only
    rw [hm, Particle.iterate_fading]
    push_cast
    ring

/-- The exact rational value of the IEEE-754 double nearest to 0.01: in
the compiled program the Rust literal `0.01` (the `fading` default of
`Particle::new`) denotes 5764607523034235·2⁻⁵⁹, which is strictly
greater than 1/100.  The `ℚ`-valued `Particle.update` above idealises
both this literal and the running subtraction as exact. -/
def c01f64 : ℚ := 5764607523034235 / 2^59

/-- C8 fails on the real program: the claim's interval [0, 1] is escaped.
The Rust literal `0.01` is the double 5764607523034235·2⁻⁵⁹ > 1/100, so
already with exact subtraction an effect particle's lifetime after its
100 alive updates is 1 − 100·0.01_f64 = −12·2⁻⁵⁹ < 0 — outside [0, 1] —
and the dead-check then freezes it at that negative value forever.
(Full per-step IEEE-754 rounding of the subtractions moves the final
value to ≈ −7.53e−16 without changing its sign.)  Stated on the
embedding with the faithful constant in the fading field. -/
theorem particle_lifetime_escapes_unit_interval :
    1/100 < c01f64 ∧
    (Particle.update^[100]
      ((Particle.new 0 0 1 1 ⟨255, 255, 255⟩).with_fading c01f64)).lifetime < 0 ∧
    (Particle.update^[101]
      ((Particle.new 0 0 1 1 ⟨255, 255, 255⟩).with_fading c01f64)).lifetime =
      (Particle.update^[100]
        ((Particle.new 0 0 1 1 ⟨255, 255, 255⟩).with_fading c01f64)).lifetime := by
  have hpos : ∀ k : ℕ, k < 100 →
      0 < ((Particle.new 0 0 1 1 ⟨255, 255, 255⟩).with_fading c01f64).lifetime -
        (k : ℚ) * ((Particle.new 0 0 1 1 ⟨255, 255, 255⟩).with_fading c01f64).fading := by
    intro k hk
    simp only [Particle.new, Particle.with_fading]
    have hk99 : (k : ℚ) ≤ 99 := by exact_mod_cast Nat.lt_succ_iff.mp hk
    have hc : (0 : ℚ) < c01f64 := by norm_num [c01f64]
    have h2 : (k : ℚ) * c01f64 ≤ 99 * c01f64 :=
      mul_le_mul_of_nonneg_right hk99 (le_of_lt hc)
    have h3 : (99 : ℚ) * c01f64 < 1 := by norm_num [c01f64]
    linarith
  have hval := Particle.iterate_lifetime
    ((Particle.new 0 0 1 1 ⟨255, 255, 255⟩).with_fading c01f64) 100 hpos
  have hneg : (Particle.update^[100]
      ((Particle.new 0 0 1 1 ⟨255, 255, 255⟩).with_fading c01f64)).lifetime < 0 := by
    rw [hval]
    simp only [Particle.new, Particle.with_fading]
    norm_num [c01f64]
  refine ⟨by norm_num [c01f64], hneg, ?_⟩
  rw [show (101 : ℕ) = 100 + 1 from rfl, Function.iterate_succ_apply',
    Particle.update_of_dead (le_of_lt hneg)]

/-- C1: the effect collection of a `Firework` is empty while the rocket
is present (`Firework::new` starts that way and a non-detonating update
keeps it); on the update in which the rocket's post-update vertical
speed exceeds -0.3, exactly 25 effect particles are appended — each at
the rocket's rounded position, 1×1, with acceleration (0, +0.02) — and
the rocket is set to `None` in that same update; once the rocket is
gone, no update ever changes the effect count again. -/
theorem firework_detonation (fw : Firework) (r : Rng) (rk : Particle)
    (hr : fw.rocket = some rk) (he : fw.effect = []) :
    (∀ (x y : ℤ) (ys : ℚ) (c : Color),
      (Firework.new x y ys c).effect = [] ∧ (Firework.new x y ys c).rocket.isSome) ∧
    (rk.update.speed.2 > -(3/10) →
      (fw.update r).1.rocket = none ∧
      (fw.update r).1.effect.length = 25 ∧
      (fw.update r).1.effect =
        (spawnList fw.base_color rk.update.position r).map Particle.update ∧
      ∀ p ∈ spawnList fw.base_color rk.update.position r,
        p.position = ((roundQ rk.update.position.1 : ℚ), (roundQ rk.update.position.2 : ℚ)) ∧
        p.dimensions = (1, 1) ∧ p.acceleration = (0, 2/100)) ∧
    (¬ rk.update.speed.2 > -(3/10) →
      (fw.update r).1.rocket = some rk.update ∧ (fw.update r).1.effect = []) ∧
    (∀ (fw2 : Firework) (r2 : Rng), fw2.rocket = none →
      (fw2.update r2).1.rocket = none ∧
      (fw2.update r2).1.effect.length = fw2.effect.length) := by
  refine ⟨?_, ?_, ?_, ?_⟩
  · intro x y ys c
    exact ⟨rfl, rfl⟩
  · intro hdet
    refine ⟨?_, ?_, ?_, ?_⟩
    · simp [Firework.update, hr, hdet]
    · simp [Firework.update, hr, hdet, he, spawnList]
    · simp [Firework.update, hr, hdet, he]
    · intro p hp
      rcases List.mem_map.mp hp with ⟨i, _, rfl⟩
      refine ⟨rfl, rfl, rfl⟩
  · intro hnodet
    constructor
    · simp [Firework.update, hr, hnodet]
    · simp [Firework.update, hr, hnodet, he]
  · intro fw2 r2 h2
    constructor
    · simp [Firework.update, h2]
    · simp [Firework.update, h2]

/-- A concrete rocket one update away from detonation (vertical speed
after the next update is 0.02 > -0.3). -/
def cRocket : Particle :=
  (((Particle.new 5 10 1 3 ⟨255, 255, 255⟩).with_acceleration
      0 (2/100)).with_speed 0 0).with_fading 0

/-- A concrete firework whose rocket is about to detonate. -/
def cFirework : Firework :=
  ⟨some cRocket, [], ⟨120, 60, 40⟩⟩

/-- Concrete instance of `firework_detonation`: the detonating update
drops the rocket and leaves exactly 25 effect particles. -/
theorem firework_detonation_witness :
    (cFirework.update cRngHalf).1.rocket = none ∧
    (cFirework.update cRngHalf).1.effect.length = 25 :=
  ⟨((firework_detonation cFirework cRngHalf cRocket rfl rfl).2.1
      (by norm_num [cRocket, Particle.new, Particle.with_speed,
        Particle.with_acceleration, Particle.with_fading, Particle.update])).1,
   ((firework_detonation cFirework cRngHalf cRocket rfl rfl).2.1
      (by norm_num [cRocket, Particle.new, Particle.with_speed,
        Particle.with_acceleration, Particle.with_fading, Particle.update])).2.1⟩

/-- C3: one tick of `fn update` is exactly the reap pass, then the
spawn trial, then the advance of every firework, composed in that
order; and the collection handed to the spawn trial (the reap output)
contains no dead firework. -/
theorem tick_phase_order (env : Rng) (s : State) (w h : ℕ) :
    update env s w h =
      (⟨(updateAll (spawnPhase env (reapPhase s) w h).1
          (spawnPhase env (reapPhase s) w h).2).1⟩,
       (updateAll (spawnPhase env (reapPhase s) w h).1
          (spawnPhase env (reapPhase s) w h).2).2) ∧
    ∀ fw ∈ reapPhase s, fw.is_dead = false := by
  constructor
  · rfl
  · intro fw hfw
    exact (mem_reapPhase.mp hfw).2

/-- An effect particle one update away from death. -/
def cDyingParticle : Particle :=
  { position := (0, 0)
    dimensions := (1, 1)
    lifetime := 1/100
    fading := 1/100
    speed := (0, 0)
    acceleration := (0, 2/100)
    color := ⟨255, 255, 255⟩ }

/-- A firework that is alive (one effect particle still alive) but will
be dead after one more advance. -/
def cDyingFirework : Firework :=
  ⟨none, [cDyingParticle], ⟨120, 60, 40⟩⟩

/-- A state holding just that firework. -/
def cDyingState : State :=
  ⟨[cDyingFirework]⟩

/-- Concrete instance of `tick_phase_order`. -/
theorem tick_phase_order_witness : cDyingFirework.is_dead = false :=
  (tick_phase_order cRngHalf cDyingState 10 10).2 cDyingFirework
    (by
      rw [mem_reapPhase]
      refine ⟨by simp [cDyingState], ?_⟩
      norm_num [cDyingFirework, cDyingParticle, Firework.is_dead, Particle.is_dead])

/-- C7 is false as stated: a firework whose last effect particle dies
during the advance phase of tick T is still in the collection when tick
T ends (it is only reaped at the start of tick T+1).  Here the tick
performs no spawn (the roll 1/2 is ≥ 0.10) and the only firework's
single effect particle reaches lifetime 0 during the advance, so the
post-tick collection consists of exactly one dead firework. -/
theorem dead_firework_survives_tick :
    ((update cRngHalf cDyingState 10 10).1.fireworks.map Firework.is_dead) = [true] ∧
    ∃ fw ∈ (update cRngHalf cDyingState 10 10).1.fireworks, fw.is_dead = true := by
  have hstep :
      (update cRngHalf cDyingState 10 10).1.fireworks.map Firework.is_dead = [true] := by
    norm_num [update, cDyingState, cRngHalf, updateAll, Firework.update,
      cDyingFirework, cDyingParticle, Firework.is_dead, Particle.is_dead,
      Particle.update, List.filter]
  refine ⟨hstep, ?_⟩
  rcases hm : (update cRngHalf cDyingState 10 10).1.fireworks with _ | ⟨fw, rest⟩
  · rw [hm] at hstep
    simp at hstep
  · rw [hm, List.map_cons, List.cons.injEq] at hstep
    exact ⟨fw, List.mem_cons_self fw rest, hstep.1⟩

/-- C7 (amended): the reap pass at the start of each tick removes
exactly the fireworks that are dead at that moment — its output contains
no dead firework, and every firework dead at tick entry is excluded from
it.  (A firework that only becomes dead during the same tick's advance
phase remains in the collection until the next tick's reap; see the
counterexample.) -/
theorem reap_removes_dead (s : State) :
    (∀ fw ∈ reapPhase s, fw.is_dead = false) ∧
    (∀ fw ∈ s.fireworks, fw.is_dead = true → fw ∉ reapPhase s) := by
  constructor
  · intro fw hfw
    exact (mem_reapPhase.mp hfw).2
  · intro fw _ hdead hmem
    rw [mem_reapPhase.mp hmem |>.2] at hdead
    exact Bool.false_ne_true hdead

/-- Concrete instance of `reap_removes_dead`: the still-alive firework
passes the reap, and a state holding one dead firework reaps to an
empty collection. -/
theorem reap_removes_dead_witness :
    cDyingFirework.is_dead = false ∧ cDeadFirework ∉ reapPhase ⟨[cDeadFirework]⟩ :=
  ⟨(reap_removes_dead cDyingState).1 cDyingFirework
      (by
        rw [mem_reapPhase]
        refine ⟨by simp [cDyingState], ?_⟩
        norm_num [cDyingFirework, cDyingParticle, Firework.is_dead, Particle.is_dead]),
   (reap_removes_dead ⟨[cDeadFirework]⟩).2 cDeadFirework (by simp)
      (by norm_num [cDeadFirework, cDeadParticle, Firework.is_dead, Particle.is_dead])⟩

/-- C4 (amended): on a tick whose Bernoulli roll (one `gen::<f64>()`
draw) is below 0.10, exactly one new firework is appended: its x is the
u32 draw reduced mod the surface width (hence in [0, width)), its y is
the surface height, its rocket's initial velocity is
(0, -1.0 + U·(-1.0)), which for U ∈ [0,1) lies in the half-open
interval (-2.0, -1.0] — it equals -1.0 when U = 0 — and its seed colour
is the three u8 draws; on a roll ≥ 0.10 the collection is unchanged. -/
theorem spawn_policy (env : Rng) (fws : List Firework) (w h : ℕ)
    (hw : 0 < w) (hU0 : 0 ≤ env.floats (env.fi + 1))
    (hU1 : env.floats (env.fi + 1) < 1) :
    (env.floats env.fi < 1/10 →
      (spawnPhase env fws w h).1 =
        fws ++ [Firework.new ((env.u32s env.ui % w : ℕ) : ℤ) (h : ℤ)
          (-1 + env.floats (env.fi + 1) * -1)
          ⟨env.u8s env.bi, env.u8s (env.bi + 1), env.u8s (env.bi + 2)⟩] ∧
      env.u32s env.ui % w < w ∧
      -2 < -1 + env.floats (env.fi + 1) * -1 ∧
      -1 + env.floats (env.fi + 1) * -1 ≤ -1 ∧
      (Firework.new ((env.u32s env.ui % w : ℕ) : ℤ) (h : ℤ)
          (-1 + env.floats (env.fi + 1) * -1)
          ⟨env.u8s env.bi, env.u8s (env.bi + 1), env.u8s (env.bi + 2)⟩).rocket.map
        (fun p => (p.position, p.speed)) =
        some ((((env.u32s env.ui % w : ℕ) : ℚ), (h : ℚ)),
          ((0 : ℚ), -1 + env.floats (env.fi + 1) * -1))) ∧
    (¬ env.floats env.fi < 1/10 → (spawnPhase env fws w h).1 = fws) := by
  constructor
  · intro hroll
    refine ⟨?_, Nat.mod_lt _ hw, by linarith, by linarith, ?_⟩
    · unfold spawnPhase
      dsimp only
      rw [if_pos hroll]
    · simp only [Firework.new, Particle.new, Particle.with_speed,
        Particle.with_fading, Particle.with_acceleration, Option.map_some]
      norm_cast
  · intro hroll
    unfold spawnPhase
    dsimp only
    rw [if_neg hroll]

/-- An rng whose first float draw is 0 (forcing a spawn with U = 0 on
the next float draw), with constant u32 stream 17 and u8 stream 9. -/
def cRngZero : Rng :=
  ⟨fun _ => 0, fun _ => 17, fun _ => 9, 0, 0, 0⟩

/-- An rng: roll 0 (spawn), then floats 1/2. -/
def cRngSpawn : Rng :=
  ⟨fun n => if n = 0 then 0 else 1/2, fun _ => 17, fun _ => 9, 0, 0, 0⟩

/-- Concrete instance of `spawn_policy`: one firework appended, x draw
17 reduced mod width 10, launch speed -3/2. -/
theorem spawn_policy_witness :
    (spawnPhase cRngSpawn [] 10 20).1 =
      [] ++ [Firework.new ((cRngSpawn.u32s cRngSpawn.ui % 10 : ℕ) : ℤ) ((20 : ℕ) : ℤ)
        (-1 + cRngSpawn.floats (cRngSpawn.fi + 1) * -1)
        ⟨cRngSpawn.u8s cRngSpawn.bi, cRngSpawn.u8s (cRngSpawn.bi + 1),
         cRngSpawn.u8s (cRngSpawn.bi + 2)⟩] ∧
    cRngSpawn.u32s cRngSpawn.ui % 10 < 10 ∧
    -2 < -1 + cRngSpawn.floats (cRngSpawn.fi + 1) * -1 :=
  ⟨((spawn_policy cRngSpawn [] 10 20 (by norm_num)
      (by norm_num [cRngSpawn]) (by norm_num [cRngSpawn])).1
      (by norm_num [cRngSpawn])).1,
   ((spawn_policy cRngSpawn [] 10 20 (by norm_num)
      (by norm_num [cRngSpawn]) (by norm_num [cRngSpawn])).1
      (by norm_num [cRngSpawn])).2.1,
   ((spawn_policy cRngSpawn [] 10 20 (by norm_num)
      (by norm_num [cRngSpawn]) (by norm_num [cRngSpawn])).1
      (by norm_num [cRngSpawn])).2.2.1⟩

/-- C4 is false as stated on one point: the claimed open interval
(-2.0, -1.0) for the initial vertical speed excludes -1.0, but the
sample U = 0 (a legitimate `gen::<f64>()` value, uniform on [0,1))
produces exactly -1.0 + 0·(-1.0) = -1.0.  With the float stream
constantly 0 the tick spawns a firework whose rocket speed is -1.0,
which is not in the open interval. -/
theorem spawn_speed_hits_endpoint :
    (spawnPhase cRngZero [] 10 20).1 =
      [Firework.new 7 20 (-1) ⟨9, 9, 9⟩] ∧
    ((Firework.new 7 20 (-1) ⟨9, 9, 9⟩).rocket.map fun p => p.speed.2) = some (-1) ∧
    ¬ ((-2 : ℚ) < -1 ∧ (-1 : ℚ) < -1) := by
  refine ⟨?_, ?_, ?_⟩
  · norm_num [spawnPhase, cRngZero]
  · simp [Firework.new, Particle.new, Particle.with_speed, Particle.with_fading,
      Particle.with_acceleration]
  · norm_num

/-- A firework holding the red base colour (HSL(0, 100, 50)) whose
rocket detonates on the next update. -/
def cRedFirework : Firework :=
  ⟨some cRocket, [], Color.as_hsl ⟨255, 0, 0⟩⟩

/-- C5 fails on the code: `Firework::update` builds the jittered colour
as `HslColor::new(h, base.s + js, base.s + jl)` — the LIGHTNESS argument
starts from the base colour's SATURATION channel (`self.base_color.s`),
not its lightness channel.  For the seed colour RGB(255,0,0) =
HSL(0,100,50) and all jitter samples 1/2 (zero jitter), the claim—and
the spec—say the burst colour is HSL(0,100,50) = RGB(255,0,0); the code
produces HSL(0,100,100) = RGB(255,255,255) for all 25 particles. -/
theorem detonation_jitter_reads_saturation :
    Color.as_hsl ⟨255, 0, 0⟩ = ⟨0, 100, 50⟩ ∧
    HslColor.toColor ⟨0, 100, 50⟩ = ⟨255, 0, 0⟩ ∧
    HslColor.toColor ⟨0, 100, 100⟩ = ⟨255, 255, 255⟩ ∧
    ((cRedFirework.update cRngHalf).1.effect.map Particle.color) =
      List.replicate 25 ⟨255, 255, 255⟩ ∧
    (⟨255, 255, 255⟩ : Color) ≠ ⟨255, 0, 0⟩ := by
  have hdet : cRocket.update.speed.2 > -(3/10) := by
    norm_num [cRocket, Particle.new, Particle.with_speed,
      Particle.with_acceleration, Particle.with_fading, Particle.update]
  have heff : (cRedFirework.update cRngHalf).1.effect =
      (spawnList (Color.as_hsl ⟨255, 0, 0⟩) cRocket.update.position cRngHalf).map
        Particle.update := by
    simp [Firework.update, show cRedFirework.rocket = some cRocket from rfl, hdet,
      show cRedFirework.base_color = Color.as_hsl ⟨255, 0, 0⟩ from rfl,
      show cRedFirework.effect = [] from rfl]
  refine ⟨by norm_num [Color.as_hsl, qmod], ?_, ?_, ?_, by decide⟩
  · norm_num [HslColor.toColor, qmod, byteClamp, roundQ, abs_eq_max_neg]
    decide
  · norm_num [HslColor.toColor, qmod, byteClamp, roundQ, abs_eq_max_neg]
    decide
  · rw [heff, List.eq_replicate_iff]
    constructor
    · simp [spawnList]
    · intro c hc
      rcases List.mem_map.mp hc with ⟨p, hp, rfl⟩
      rcases List.mem_map.mp hp with ⟨q, hq, rfl⟩
      rw [Particle.update_color]
      unfold spawnList at hq
      rcases List.mem_map.mp hq with ⟨i, _, rfl⟩
      norm_num [cRngHalf, mkEffectParticle, Particle.new, Particle.with_speed,
        Particle.with_acceleration, Color.as_hsl, HslColor.toColor, clampQ,
        qmod, byteClamp, roundQ, abs_eq_max_neg]
      decide

/-- C10: every effect particle produced by the detonation loop carries
the `Particle::new` defaults — lifetime exactly 1.0 and fading exactly
0.01 (neither builder call overrides them) — so while it stays alive
each update decreases its lifetime by exactly 0.01. -/
theorem effect_particle_defaults (base : HslColor) (pos : ℚ × ℚ) (r : Rng)
    (q : Particle) :
    (∀ p ∈ spawnList base pos r, p.lifetime = 1 ∧ p.fading = 1/100) ∧
    (q.fading = 1/100 → 0 < q.lifetime →
      q.update.lifetime = q.lifetime - 1/100) := by
  constructor
  · intro p hp
    unfold spawnList at hp
    rcases List.mem_map.mp hp with ⟨i, _, rfl⟩
    exact ⟨rfl, rfl⟩
  · intro hf hl
    rw [Particle.update_of_alive hl]
    dsimp only
    rw [hf]

/-- Concrete instance of `effect_particle_defaults` at the first
detonation particle of a burst. -/
theorem effect_particle_defaults_witness :
    ((mkEffectParticle ⟨120, 60, 40⟩ (0, 0) (1/2) (1/2) (1/2) (1/2)).lifetime = 1 ∧
     (mkEffectParticle ⟨120, 60, 40⟩ (0, 0) (1/2) (1/2) (1/2) (1/2)).fading = 1/100) ∧
    (mkEffectParticle ⟨120, 60, 40⟩ (0, 0) (1/2) (1/2) (1/2) (1/2)).update.lifetime =
      (mkEffectParticle ⟨120, 60, 40⟩ (0, 0) (1/2) (1/2) (1/2) (1/2)).lifetime - 1/100 :=
  ⟨(effect_particle_defaults ⟨120, 60, 40⟩ (0, 0) cRngHalf
        (mkEffectParticle ⟨120, 60, 40⟩ (0, 0) (1/2) (1/2) (1/2) (1/2))).1
      (mkEffectParticle ⟨120, 60, 40⟩ (0, 0) (1/2) (1/2) (1/2) (1/2))
      (by
        unfold spawnList
        exact List.mem_map.mpr ⟨0, by simp, rfl⟩),
   (effect_particle_defaults ⟨120, 60, 40⟩ (0, 0) cRngHalf
        (mkEffectParticle ⟨120, 60, 40⟩ (0, 0) (1/2) (1/2) (1/2) (1/2))).2
      (by norm_num [mkEffectParticle, Particle.new, Particle.with_speed,
        Particle.with_acceleration])
      (by norm_num [mkEffectParticle, Particle.new, Particle.with_speed,
        Particle.with_acceleration])⟩
